import Mathlib

/-!
Verification of the Scribit wall-plotter G-code generation core
(`scribit_svg_to_gcode.py` and `scribit_jog_cli.py`): cord kinematics,
carousel CCW-only state machine, motion-program emission, travel
segmentation, path sampling, and the discrete-command cache.

Machine floats are modelled by exact rationals (for the jog/carousel
arithmetic and the decimal formatting) and by real numbers (for the
square-root kinematics).
-/

set_option maxHeartbeats 1000000
set_option linter.unusedVariables false
set_option linter.unnecessarySeqFocus false

/-! ### Decimal formatting (Python `f"{v:.3f}"` on exact thousandths) -/

/-- Left-pad a fractional part (0..999) to three digits. -/
def pad3 (n : ℕ) : String :=
  if n < 10 then "00" ++ toString n
  else if n < 100 then "0" ++ toString n
  else toString n

/-- Render a non-negative number of thousandths as a 3-decimal string. -/
def fmt3mil (n : ℕ) : String :=
  toString (n / 1000) ++ "." ++ pad3 (n % 1000)

/-- Three-decimal fixed-point rendering of a rational, as Python `%.3f`
renders the corresponding value (exact on multiples of 1/1000, which covers
every formatted value these programs emit). -/
def fmt3 (q : ℚ) : String :=
  if round (q * 1000) < 0 then "-" ++ fmt3mil (round (q * 1000)).toNat
  else fmt3mil (round (q * 1000)).toNat

/-- Join lines as `"\n".join(lines) + "\n"`. -/
def joinGcode (lines : List String) : String :=
  String.intercalate "\n" lines ++ "\n"

/-! ### Carousel state machine (`ccw_only_target` / `App._ccw_only_target`) -/

/-- Pen slot Z degrees table of `scribit_svg_to_gcode.py` (`PEN_SLOTS_Z`). -/
def PEN_SLOTS_Z (pen : ℕ) : Option ℚ :=
  match pen with
  | 1 => some 89
  | 2 => some 161
  | 3 => some 233
  | 4 => some 305
  | _ => none

/-- Pen slot Z table of `scribit_jog_cli.py` (`PEN_SLOT_Z`, same values). -/
def PEN_SLOT_Z (pen : ℕ) : Option ℚ :=
  match pen with
  | 1 => some 89
  | 2 => some 161
  | 3 => some 233
  | 4 => some 305
  | _ => none

/-- The `while target < current: target += 360.0` loop shared by both
`ccw_only_target` implementations. -/
def wrapUp (current target : ℚ) : ℚ :=
  if _h : target < current then wrapUp current (target + 360) else target
termination_by (⌈(current - target) / 360⌉).toNat
decreasing_by
  have e : (current - (target + 360)) / 360 = (current - target) / 360 - 1 := by ring
  rw [e, Int.ceil_sub_one]
  have hc : 0 < ⌈(current - target) / 360⌉ :=
    Int.ceil_pos.mpr (div_pos (by linarith) (by norm_num))
  omega

/-- Function `ccw_only_target` from `scribit_svg_to_gcode.py`. -/
def ccw_only_target (current_z : Option ℚ) (slot_z : ℚ) : ℚ :=
  match current_z with
  | none => slot_z
  | some c => wrapUp c slot_z

/-- Function `App._ccw_only_target` from `scribit_jog_cli.py` (same algorithm). -/
def App_ccw_only_target (current_z : Option ℚ) (slot_z : ℚ) : ℚ :=
  match current_z with
  | none => slot_z
  | some c => wrapUp c slot_z

/-- Folding a sequence of slot selections through the carousel state,
starting from a known angle (models repeated `selectTarget` calls). -/
def selectSeq (c : ℚ) (slots : List ℚ) : ℚ :=
  slots.foldl (fun acc s => ccw_only_target (some acc) s) c

/-! ### Motion-program emission (svg tool) -/

/-- Constant `Z_AFTER_G77`, the reference after homing. -/
def Z_AFTER_G77 : ℚ := -56

/-- Function `gcode_pen_select_ccw`: pen-select block of the svg tool; returns the
lines and the updated carousel state, or the `ValueError` message. -/
def gcode_pen_select_ccw (pen : ℕ) (f_z : ℤ) (st : Option ℚ) :
    Except String (List String × Option ℚ) :=
  match PEN_SLOTS_Z pen with
  | none => .error "pen must be 1..4"
  | some slot =>
    .ok (["G90", "G1 Z" ++ fmt3 (ccw_only_target st slot) ++ " F" ++ toString f_z, "G91"],
         some (ccw_only_target st slot))

/-- Function `gcode_pen_down`: three pulses for a reliable latch. -/
def gcode_pen_down : List String := ["G101", "G101", "G101"]

/-- Function `gcode_dwell`: dwell block with the negative-duration clamp. -/
def gcode_dwell (seconds : ℚ) : List String :=
  ["G4 S" ++ fmt3 (max 0 seconds)]

/-- Function `gcode_home_carousel`: home block of the svg tool (sets the state to the
post-`G77` reference before returning the lines). -/
def gcode_home_carousel : List String × Option ℚ :=
  (["G21", "G90", "M17", "G77", "G92 Z-56", "G91"], some Z_AFTER_G77)

/-! ### Jog CLI: pen/home builders -/

/-- Method `App.build_pen_gcode`, kept as its line list plus the updated carousel
state (`None` result models the `KeyError` on a pen outside the table). -/
def build_pen_lines (z : Option ℚ) (pen : ℕ) (is_down : Bool) (fz : ℤ) :
    Option (List String × Option ℚ) :=
  match PEN_SLOT_Z pen with
  | none => none
  | some slot =>
    some (["G21", "G90", "M17",
           "G1 Z" ++ fmt3 (App_ccw_only_target z slot) ++ " F" ++ toString fz]
          ++ (if is_down then ["G101", "G101", "G101"] else []),
          some (App_ccw_only_target z slot))

/-- Method `App.build_pen_gcode` text result (lines joined with newlines). -/
def build_pen_gcode (z : Option ℚ) (pen : ℕ) (is_down : Bool) (fz : ℤ) :
    Option (String × Option ℚ) :=
  (build_pen_lines z pen is_down fz).map (fun p => (joinGcode p.1, p.2))

/-- Method `App.build_g77_gcode`: home block text plus the state it installs. -/
def build_g77_gcode : String × Option ℚ :=
  (joinGcode ["G21", "G90", "M17", "G77", "G92 Z-56"], some (-56))

/-! ### Cord kinematics (`xy_to_lr`, `wall_xy_to_lr_delta_g1`) -/

/-- Function `math.hypot`. -/
noncomputable def hypot (x y : ℝ) : ℝ := Real.sqrt (x ^ 2 + y ^ 2)

/-- Function `xy_to_lr`: wall XY (mm) to left/right cord lengths (mm). -/
noncomputable def xy_to_lr (x_mm y_mm D_mm : ℝ) : ℝ × ℝ :=
  (hypot x_mm y_mm, hypot (D_mm - x_mm) y_mm)

/-- One incremental `G1` move of the svg tool, kept structurally:
`x` is the field after `X`, `y` the field after `Y`, `feed` after `F`
(the emitted text renders `x` and `y` with three decimals). -/
structure G1XY where
  x : ℝ
  y : ℝ
  feed : ℤ

/-- Function `wall_xy_to_lr_delta_g1`: emits a single incremental move in
`(dL, -dR)` space and returns it with the updated wall position. -/
noncomputable def wall_xy_to_lr_delta_g1 (cur_xy next_xy : ℝ × ℝ) (D_mm : ℝ) (feed : ℤ) :
    G1XY × (ℝ × ℝ) :=
  ({ x := (xy_to_lr next_xy.1 next_xy.2 D_mm).1 - (xy_to_lr cur_xy.1 cur_xy.2 D_mm).1,
     y := -((xy_to_lr next_xy.1 next_xy.2 D_mm).2 - (xy_to_lr cur_xy.1 cur_xy.2 D_mm).2),
     feed := feed },
   next_xy)

/-! ### Travel segmenter (`move_xy_segmented`) -/

/-- The loop's intermediate wall point `(x0 + dx * (i / n), y0 + dy * (i / n))`. -/
noncomputable def seg_pt (cur target : ℝ × ℝ) (n : ℕ) (i : ℕ) : ℝ × ℝ :=
  (cur.1 + (target.1 - cur.1) * ((i : ℝ) / (n : ℝ)),
   cur.2 + (target.2 - cur.2) * ((i : ℝ) / (n : ℝ)))

/-- The `for i in range(1, n + 1)` loop of `move_xy_segmented`. -/
noncomputable def seg_loop (cur target : ℝ × ℝ) (D_mm : ℝ) (feed : ℤ) (n : ℕ) :
    List G1XY × (ℝ × ℝ) :=
  (List.range' 1 n).foldl
    (fun acc i =>
      ((acc.1 ++ [(wall_xy_to_lr_delta_g1 acc.2 (seg_pt cur target n i) D_mm feed).1]),
       (wall_xy_to_lr_delta_g1 acc.2 (seg_pt cur target n i) D_mm feed).2))
    ([], cur)

/-- Function `move_xy_segmented`: split a straight wall-space move into
at-most-`max_step_mm` segments, with the zero-distance and non-positive
step fallbacks of the source. -/
noncomputable def move_xy_segmented (cur_xy target_xy : ℝ × ℝ) (D_mm : ℝ) (feed : ℤ)
    (max_step_mm : ℝ) : List G1XY × (ℝ × ℝ) :=
  if hypot (target_xy.1 - cur_xy.1) (target_xy.2 - cur_xy.2) ≤ 1 / 1000000000 then
    ([], cur_xy)
  else if max_step_mm ≤ 0 then
    ([(wall_xy_to_lr_delta_g1 cur_xy target_xy D_mm feed).1],
     (wall_xy_to_lr_delta_g1 cur_xy target_xy D_mm feed).2)
  else
    seg_loop cur_xy target_xy D_mm feed
      (max 1 (⌈hypot (target_xy.1 - cur_xy.1) (target_xy.2 - cur_xy.2) / max_step_mm⌉).toNat)

/-! ### Path sampler (`sample_path_uniform_t` and the sample count of `main`) -/

/-- Count `n = max(1, int(math.ceil(length_wall / max(1e-9, args.step_mm))))` from
the drawing loop of `main`. -/
def n_samples (length_wall step_mm : ℚ) : ℤ :=
  max 1 ⌈length_wall / max (1 / 1000000000) step_mm⌉

/-- Function `sample_path_uniform_t`: uniform-in-parameter sampling of a curve,
`n + 1` points including the endpoint (`path.point` is the abstract `γ`). -/
noncomputable def sample_path_uniform_t (γ : ℝ → ℝ × ℝ) (n : ℤ) : List (ℝ × ℝ) :=
  (List.range ((max 1 n).toNat + 1)).map (fun i : ℕ => γ ((i : ℝ) / ((max 1 n : ℤ) : ℝ)))

/-! ### Jog CLI command tables and discrete-command cache -/

/-- Table `MOTOR_CMDS`, the ordered dict of `scribit_jog_cli.py`. -/
def MOTOR_TABLE : List (String × (ℤ × ℤ)) :=
  [("BOTH_IN", (-1, -1)), ("BOTH_OUT", (1, 1)),
   ("L_IN", (-1, 0)), ("L_OUT", (1, 0)),
   ("R_IN", (0, -1)), ("R_OUT", (0, 1)),
   ("LEFTISH", (-1, 1)), ("RIGHTISH", (1, -1))]

/-- Lookup in `MOTOR_CMDS`. -/
def MOTOR_CMDS (cmd : String) : Option (ℤ × ℤ) := MOTOR_TABLE.lookup cmd

/-- Key set of `MOTOR_CMDS`. -/
def motorNames : List String :=
  ["BOTH_IN", "BOTH_OUT", "L_IN", "L_OUT", "R_IN", "R_OUT", "LEFTISH", "RIGHTISH"]

/-- Set `CAROUSEL_CMDS`. -/
def CAROUSEL_CMDS : List String := ["CAR_CCW", "CAR_CW"]

/-- Set `PEN_CMDS`. -/
def PEN_CMDS : List String :=
  ["P1_UP", "P2_UP", "P3_UP", "P4_UP", "P1_DOWN", "P2_DOWN", "P3_DOWN", "P4_DOWN"]

/-- Set `SPECIAL_CMDS = {"G77"} | CAROUSEL_CMDS | PEN_CMDS`; together with the
motor jogs this is the closed set of command identifiers. -/
def SPECIAL_CMDS : List String := "G77" :: (CAROUSEL_CMDS ++ PEN_CMDS)

/-- The identifiers `Cache._build_gcode` recognizes (motor jogs, carousel
jogs, home). -/
def staticCmds : List String := motorNames ++ CAROUSEL_CMDS ++ ["G77"]

/-- The identifiers whose program text depends on the carousel state
(pen selects and home), per the specification. -/
def dynamicCmds : List String := "G77" :: PEN_CMDS

/-- Jog parameters (`Key` dataclass): step size and feed rate. -/
structure Key where
  step : ℚ
  feed : ℤ
  deriving DecidableEq, Repr

/-- Method `Cache._build_gcode`: the static program builder; raises (models as
`.error`) on anything outside `staticCmds`. -/
def build_gcode (key : Key) (cmd : String) : Except String String :=
  match MOTOR_CMDS cmd with
  | some sc =>
    .ok (joinGcode ["G21", "G91", "M17",
        "G1 X" ++ fmt3 (sc.1 * key.step) ++ " Y" ++ fmt3 (-(sc.2 * key.step))
          ++ " F" ++ toString key.feed])
  | none =>
    if cmd ∈ CAROUSEL_CMDS then
      .ok (joinGcode ["G21", "G91", "M17",
          "G1 Z" ++ fmt3 (if cmd = "CAR_CCW" then key.step else -key.step)
            ++ " F" ++ toString key.feed])
    else if cmd = "G77" then
      .ok (joinGcode ["G21", "G90", "M17", "G77", "G92 Z-56"])
    else
      .error ("unknown cmd " ++ cmd)

/-- In-memory cache contents: association list from `(key, cmd)` to text. -/
abbrev CacheMap := List ((Key × String) × String)

/-- Method `Cache.get_gcode` with an instrumentation flag: result, updated cache,
and whether `_build_gcode` was invoked (a miss). A raised error leaves the
cache unchanged. -/
def get_gcode (cache : CacheMap) (key : Key) (cmd : String) :
    Except String String × CacheMap × Bool :=
  match cache.lookup (key, cmd) with
  | some g => (.ok g, cache, false)
  | none =>
    match build_gcode key cmd with
    | .ok g => (.ok g, ((key, cmd), g) :: cache, true)
    | .error e => (.error e, cache, true)

/-- Trace of a sequence of `get_gcode` calls against one cache: for each
request, the request, the outcome, and the computed flag. -/
def runTrace (cache : CacheMap) : List (Key × String) →
    List ((Key × String) × Except String String × Bool)
  | [] => []
  | r :: rs =>
    ((r, (get_gcode cache r.1 r.2).1, (get_gcode cache r.1 r.2).2.2))
      :: runTrace (get_gcode cache r.1 r.2).2.1 rs

/-- HTTP result of `Handler.do_GET` for a `/g/<CMD>.gcode` path. -/
inductive Response where
  | ok (body : String)
  | badRequest (body : String)
  deriving DecidableEq, Repr

/-- Method `Handler.do_GET` on `/g/<cmd>.gcode`: dynamic table first, then the
static cache; any builder error becomes a 400 response. The boolean records
whether the request fell through to the static cache. -/
def serve_gcode (dyn : List (String × String)) (cache : CacheMap) (key : Key) (cmd : String) :
    Response × CacheMap × Bool :=
  match dyn.lookup cmd with
  | some g => (.ok g, cache, false)
  | none =>
    match get_gcode cache key cmd with
    | (.ok g, cache2, _) => (.ok g, cache2, true)
    | (.error e, cache2, _) => (.badRequest ("bad request: " ++ e ++ "\n"), cache2, true)

/-! ### Theorems on the carousel loop -/

theorem wrapUp_of_not_lt {c t : ℚ} (h : ¬ t < c) : wrapUp c t = t := by
  rw [wrapUp, dif_neg h]

theorem wrapUp_of_lt {c t : ℚ} (h : t < c) : wrapUp c t = wrapUp c (t + 360) := by
  rw [wrapUp, dif_pos h]

/-- The loop exits only at an angle at or past the current one. -/
theorem wrapUp_ge (c t : ℚ) : c ≤ wrapUp c t := by
  refine wrapUp.induct c (fun t => c ≤ wrapUp c t) ?_ ?_ t
  · intro x hx ih
    rw [wrapUp_of_lt hx]; exact ih
  · intro x hx
    rw [wrapUp_of_not_lt hx]; exact le_of_not_lt hx

/-- The result is the start angle plus a non-negative number of full turns. -/
theorem wrapUp_exists_turns (c t : ℚ) : ∃ k : ℕ, wrapUp c t = t + 360 * k := by
  refine wrapUp.induct c (fun t => ∃ k : ℕ, wrapUp c t = t + 360 * k) ?_ ?_ t
  · intro x hx ih
    obtain ⟨k, hk⟩ := ih
    exact ⟨k + 1, by rw [wrapUp_of_lt hx, hk]; push_cast; ring⟩
  · intro x hx
    exact ⟨0, by rw [wrapUp_of_not_lt hx]; push_cast; ring⟩

/-- Minimality: the loop stops at the first admissible turn count. -/
theorem wrapUp_min (c t : ℚ) : ∀ k : ℕ, c ≤ t + 360 * k → wrapUp c t ≤ t + 360 * k := by
  refine wrapUp.induct c
    (fun t => ∀ k : ℕ, c ≤ t + 360 * k → wrapUp c t ≤ t + 360 * k) ?_ ?_ t
  · intro x hx ih k hk
    rw [wrapUp_of_lt hx]
    match k with
    | 0 => simp only [Nat.cast_zero, mul_zero, add_zero] at hk; exact absurd hk (not_le.mpr hx)
    | k + 1 =>
      have := ih k (by push_cast at hk ⊢; linarith)
      calc wrapUp c (x + 360) ≤ x + 360 + 360 * k := this
        _ = x + 360 * (k + 1 : ℕ) := by push_cast; ring
  · intro x hx k _
    rw [wrapUp_of_not_lt hx]
    have : (0 : ℚ) ≤ 360 * k := by positivity
    linarith

/-- Monotone non-decrease of the stored angle over any selection sequence. -/
theorem selectSeq_ge (slots : List ℚ) : ∀ c : ℚ, c ≤ selectSeq c slots := by
  induction slots with
  | nil => intro c; exact le_refl c
  | cons s l ih =>
    intro c
    have h1 : c ≤ ccw_only_target (some c) s := wrapUp_ge c s
    exact le_trans h1 (ih (ccw_only_target (some c) s))

/-- C1: for every pen slot and known carousel angle, the CCW-only target is
the smallest `base + 360 * k` (`k : ℕ`) at or above the current angle, it is
congruent to the slot angle modulo 360, the state is set to it, and the
stored angle is monotonically non-decreasing over any selection sequence. -/
theorem selectTarget_ccw_only (pen : ℕ) (slot c : ℚ) (f_z : ℤ)
    (h : PEN_SLOTS_Z pen = some slot) :
    c ≤ ccw_only_target (some c) slot ∧
    (∃ k : ℕ, ccw_only_target (some c) slot = slot + 360 * k) ∧
    (∀ k : ℕ, c ≤ slot + 360 * k → ccw_only_target (some c) slot ≤ slot + 360 * k) ∧
    App_ccw_only_target (some c) slot = ccw_only_target (some c) slot ∧
    gcode_pen_select_ccw pen f_z (some c)
      = .ok (["G90", "G1 Z" ++ fmt3 (ccw_only_target (some c) slot) ++ " F" ++ toString f_z,
              "G91"],
             some (ccw_only_target (some c) slot)) ∧
    (∀ slots : List ℚ, c ≤ selectSeq c slots) := by
  refine ⟨wrapUp_ge c slot, wrapUp_exists_turns c slot, wrapUp_min c slot, rfl, ?_,
    fun slots => selectSeq_ge slots c⟩
  simp [gcode_pen_select_ccw, h]

theorem selectTarget_ccw_only_witness :
    PEN_SLOTS_Z 1 = some 89 ∧
    (-56 : ℚ) ≤ ccw_only_target (some (-56)) 89 ∧
    (∃ k : ℕ, ccw_only_target (some (-56)) 89 = 89 + 360 * k) ∧
    (∀ k : ℕ, (120 : ℚ) ≤ 89 + 360 * k → ccw_only_target (some 120) 89 ≤ 89 + 360 * k) :=
  ⟨rfl, (selectTarget_ccw_only 1 89 (-56) 600 rfl).1,
   (selectTarget_ccw_only 1 89 (-56) 600 rfl).2.1,
   (selectTarget_ccw_only 1 89 120 600 rfl).2.2.1⟩

/-- C2: `xy_to_lr` returns `left = hypot(x, y)` and `right = hypot(D - x, y)`,
and the emitted incremental move encodes `X = dLeft`, `Y = -dRight` at the
given integer feed, where the deltas are differences of cord lengths. -/
theorem cord_kinematics (x y D : ℝ) (hD : 0 < D) (p0 p1 : ℝ × ℝ) (feed : ℤ) :
    xy_to_lr x y D = (hypot x y, hypot (D - x) y) ∧
    hypot x y = Real.sqrt (x ^ 2 + y ^ 2) ∧
    (wall_xy_to_lr_delta_g1 p0 p1 D feed).1.x
      = (xy_to_lr p1.1 p1.2 D).1 - (xy_to_lr p0.1 p0.2 D).1 ∧
    (wall_xy_to_lr_delta_g1 p0 p1 D feed).1.y
      = -((xy_to_lr p1.1 p1.2 D).2 - (xy_to_lr p0.1 p0.2 D).2) ∧
    (wall_xy_to_lr_delta_g1 p0 p1 D feed).1.feed = feed ∧
    (wall_xy_to_lr_delta_g1 p0 p1 D feed).2 = p1 :=
  ⟨rfl, rfl, rfl, rfl, rfl, rfl⟩

theorem cord_kinematics_witness :
    (0 : ℝ) < 1860 ∧ xy_to_lr 0 0 1860 = (hypot 0 0, hypot (1860 - 0) 0) :=
  ⟨by norm_num, (cord_kinematics 0 0 1860 (by norm_num) (0, 0) (1, 1) 600).1⟩

/-- Evaluate `fmt3` once the rounded thousandths are known non-negative. -/
theorem fmt3_eq_of_round (q : ℚ) (n : ℕ) (h : round (q * 1000) = (n : ℤ)) :
    fmt3 q = fmt3mil n := by
  unfold fmt3
  rw [h, if_neg (not_lt.mpr (Int.natCast_nonneg n)), Int.toNat_natCast]

theorem fmt3_zero : fmt3 0 = "0.000" := by
  rw [fmt3_eq_of_round 0 0 (by norm_num)]
  decide

theorem fmt3_89 : fmt3 89 = "89.000" := by
  rw [fmt3_eq_of_round 89 89000 (by norm_num [round_eq, Int.floor_eq_iff])]
  decide

/-- C9: the dwell block is one pause line whose seconds value is the
non-negative clamp of the request; `-0.5` emits exactly `G4 S0.000`. -/
theorem dwell_clamped (s : ℚ) :
    gcode_dwell s = ["G4 S" ++ fmt3 (max 0 s)] ∧
    (gcode_dwell s).length = 1 ∧
    0 ≤ max 0 s ∧
    gcode_dwell (-(1 / 2)) = ["G4 S0.000"] := by
  refine ⟨rfl, rfl, le_max_left 0 s, ?_⟩
  show ["G4 S" ++ fmt3 (max 0 (-(1 / 2)))] = ["G4 S0.000"]
  rw [max_eq_left (by norm_num : -(1 / 2 : ℚ) ≤ 0), fmt3_zero]
  decide

/-- C10: every pen select writes `some target` into the carousel state, and
from the unknown state the degraded-mode fallback stores the raw slot angle,
so the state is known after the first select. -/
theorem pen_select_state_becomes_known (pen : ℕ) (slot : ℚ) (f_z fz : ℤ)
    (st : Option ℚ) (is_down : Bool)
    (h : PEN_SLOTS_Z pen = some slot) (h2 : PEN_SLOT_Z pen = some slot) :
    (∃ lines, gcode_pen_select_ccw pen f_z st = .ok (lines, some (ccw_only_target st slot))) ∧
    (∃ text, build_pen_gcode st pen is_down fz = some (text, some (App_ccw_only_target st slot))) ∧
    (st = none → ccw_only_target st slot = slot ∧ App_ccw_only_target st slot = slot) := by
  refine ⟨⟨["G90", "G1 Z" ++ fmt3 (ccw_only_target st slot) ++ " F" ++ toString f_z, "G91"],
          by simp [gcode_pen_select_ccw, h]⟩,
          ⟨joinGcode (["G21", "G90", "M17",
              "G1 Z" ++ fmt3 (App_ccw_only_target st slot) ++ " F" ++ toString fz]
              ++ (if is_down then ["G101", "G101", "G101"] else [])),
          by simp [build_pen_gcode, build_pen_lines, h2]⟩, ?_⟩
  rintro rfl
  exact ⟨rfl, rfl⟩

theorem pen_select_state_becomes_known_witness :
    PEN_SLOTS_Z 1 = some 89 ∧ PEN_SLOT_Z 1 = some 89 ∧
    (∃ lines, gcode_pen_select_ccw 1 600 none = .ok (lines, some (ccw_only_target none 89))) ∧
    (((none : Option ℚ) = none) → ccw_only_target none 89 = 89 ∧ App_ccw_only_target none 89 = 89) :=
  ⟨rfl, rfl, (pen_select_state_becomes_known 1 89 600 2000 none true rfl rfl).1,
   (pen_select_state_becomes_known 1 89 600 2000 none true rfl rfl).2.2⟩

/-- A Z-move line can never be the literal incremental-mode line. -/
theorem zline_ne_G91 (a b : String) : "G1 Z" ++ a ++ " F" ++ b ≠ "G91" := by
  intro h
  have hl := congrArg String.length h
  simp only [String.length_append] at hl
  have h4 : ("G1 Z").length = 4 := rfl
  have h2 : (" F").length = 2 := rfl
  have h3 : ("G91").length = 3 := rfl
  omega

/-- C4 (amended): the svg pen-select block is exactly absolute switch, one
Z move at the pen feed, incremental switch, with the pen-down pulses a
separate three-`G101` block; the jog CLI's pen block is a
units/absolute/motor-enable preamble plus the Z move, with the three pulses
appended when pen-down and no switch back to incremental inside the block. -/
theorem pen_select_block_shape (pen : ℕ) (slot : ℚ) (f_z fz : ℤ) (st z : Option ℚ)
    (is_down : Bool) (h : PEN_SLOTS_Z pen = some slot) (h2 : PEN_SLOT_Z pen = some slot) :
    gcode_pen_select_ccw pen f_z st
      = .ok (["G90", "G1 Z" ++ fmt3 (ccw_only_target st slot) ++ " F" ++ toString f_z, "G91"],
             some (ccw_only_target st slot)) ∧
    gcode_pen_down = ["G101", "G101", "G101"] ∧
    build_pen_lines z pen is_down fz
      = some ((["G21", "G90", "M17",
                "G1 Z" ++ fmt3 (App_ccw_only_target z slot) ++ " F" ++ toString fz]
               ++ (if is_down then ["G101", "G101", "G101"] else [])),
              some (App_ccw_only_target z slot)) ∧
    "G91" ∉ (["G21", "G90", "M17",
              "G1 Z" ++ fmt3 (App_ccw_only_target z slot) ++ " F" ++ toString fz]
             ++ (if is_down then ["G101", "G101", "G101"] else [])) := by
  refine ⟨by simp [gcode_pen_select_ccw, h], rfl, by simp [build_pen_lines, h2], ?_⟩
  intro hmem
  rcases List.mem_append.mp hmem with hmem | hmem
  · simp only [List.mem_cons, List.not_mem_nil, or_false] at hmem
    rcases hmem with h' | h' | h' | h'
    · exact absurd h' (by decide)
    · exact absurd h' (by decide)
    · exact absurd h' (by decide)
    · exact zline_ne_G91 _ _ h'.symm
  · cases is_down with
    | false => simp at hmem
    | true =>
      simp only [if_pos, List.mem_cons, List.not_mem_nil, or_false] at hmem
      rcases hmem with h' | h' | h' <;> exact absurd h' (by decide)

theorem pen_select_block_counterexample :
    build_pen_lines none 1 false 2000 = some (["G21", "G90", "M17", "G1 Z89.000 F2000"], some 89) ∧
    "G91" ∉ ["G21", "G90", "M17", "G1 Z89.000 F2000"] := by
  constructor
  · have h1 : build_pen_lines none 1 false 2000
        = some (["G21", "G90", "M17", "G1 Z" ++ fmt3 89 ++ " F" ++ toString (2000 : ℤ)],
                some 89) := by
      simp [build_pen_lines, PEN_SLOT_Z, App_ccw_only_target]
    rw [h1, fmt3_89]
    decide
  · decide

theorem pen_select_block_shape_witness :
    PEN_SLOTS_Z 2 = some 161 ∧ PEN_SLOT_Z 2 = some 161 ∧
    gcode_pen_down = ["G101", "G101", "G101"] ∧
    build_pen_lines (some 120) 2 true 2000
      = some ((["G21", "G90", "M17",
                "G1 Z" ++ fmt3 (App_ccw_only_target (some 120) 161) ++ " F" ++ toString (2000 : ℤ)]
               ++ (if true then ["G101", "G101", "G101"] else [])),
              some (App_ccw_only_target (some 120) 161)) :=
  ⟨rfl, rfl, (pen_select_block_shape 2 161 600 2000 none (some 120) true rfl rfl).2.1,
   (pen_select_block_shape 2 161 600 2000 none (some 120) true rfl rfl).2.2.1⟩

/-! ### Cache lemmas and the at-most-once computation law (C6) -/

theorem lookup_cons_self (p : Key × String) (g : String) (cache : CacheMap) :
    ((p, g) :: cache).lookup p = some g := by
  simp [List.lookup]

theorem lookup_cons_ne (g : String) (cache : CacheMap) {p q : Key × String} (h : p ≠ q) :
    ((q, g) :: cache).lookup p = cache.lookup p := by
  simp [List.lookup, beq_eq_false_iff_ne.mpr h]

/-- Every static command identifier is built successfully. -/
theorem static_build_ok (k : Key) (c : String) (hc : c ∈ staticCmds) :
    ∃ g, build_gcode k c = .ok g := by
  simp only [staticCmds, motorNames, CAROUSEL_CMDS, List.mem_append, List.mem_cons,
    List.not_mem_nil, or_false, List.mem_singleton] at hc
  rcases hc with ((rfl | rfl | rfl | rfl | rfl | rfl | rfl | rfl) | (rfl | rfl)) | rfl <;>
    exact ⟨_, rfl⟩

/-- Pen commands are rejected by the static builder. -/
theorem pen_build_error (k : Key) (c : String) (hc : c ∈ PEN_CMDS) :
    build_gcode k c = .error ("unknown cmd " ++ c) := by
  simp only [PEN_CMDS, List.mem_cons, List.not_mem_nil, or_false] at hc
  rcases hc with rfl | rfl | rfl | rfl | rfl | rfl | rfl | rfl <;> rfl

/-- Once an entry is cached, no later request for it recomputes, and the
entry survives every later request. -/
theorem runTrace_count_zero (k : Key) (c : String) :
    ∀ (reqs : List (Key × String)) (cache : CacheMap) (g : String),
      cache.lookup (k, c) = some g →
      (runTrace cache reqs).countP (fun e => decide (e.1 = (k, c)) && e.2.2) = 0 := by
  intro reqs
  induction reqs with
  | nil => intro cache g h; rfl
  | cons r rs ih =>
    intro cache g h
    obtain ⟨rk, rc⟩ := r
    simp only [runTrace, List.countP_cons]
    by_cases hr : (rk, rc) = (k, c)
    · have hl : cache.lookup (rk, rc) = some g := by rw [hr]; exact h
      have hget : get_gcode cache rk rc = (.ok g, cache, false) := by
        simp only [get_gcode, hl]
      rw [hget]
      simp [ih cache g h]
    · have hpred : (decide ((rk, rc) = (k, c)) && (get_gcode cache rk rc).2.2) = false := by
        simp [hr]
      rw [hpred]
      have hlook : ((get_gcode cache rk rc).2.1).lookup (k, c) = some g := by
        cases hcl : cache.lookup (rk, rc) with
        | some v =>
          simp only [get_gcode, hcl]
          exact h
        | none =>
          cases hb : build_gcode rk rc with
          | ok gg =>
            simp only [get_gcode, hcl, hb]
            rw [lookup_cons_ne _ _ (fun e => hr e.symm)]
            exact h
          | error e2 =>
            simp only [get_gcode, hcl, hb]
            exact h
      simp [ih _ g hlook]

/-- Along any request sequence from an uncorrupted cache, every response
for a statically buildable `(key, cmd)` is the built text. -/
theorem runTrace_responses (k : Key) (c : String) (g : String)
    (hb : build_gcode k c = .ok g) :
    ∀ (reqs : List (Key × String)) (cache : CacheMap),
      (∀ p v, cache.lookup p = some v → build_gcode p.1 p.2 = .ok v) →
      ∀ e ∈ runTrace cache reqs, e.1 = (k, c) → e.2.1 = .ok g := by
  intro reqs
  induction reqs with
  | nil => intro cache hinv e he; exact absurd he (List.not_mem_nil e)
  | cons r rs ih =>
    intro cache hinv e he hek
    obtain ⟨rk, rc⟩ := r
    simp only [runTrace, List.mem_cons] at he
    rcases he with rfl | he
    · have hek' : (rk, rc) = (k, c) := hek
      have hk : rk = k := congrArg Prod.fst hek'
      have hc2 : rc = c := congrArg Prod.snd hek'
      show (get_gcode cache rk rc).1 = .ok g
      rw [hk, hc2]
      cases hcl : cache.lookup (k, c) with
      | some v =>
        have hv := hinv (k, c) v hcl
        rw [hb] at hv
        injection hv with hv'
        simp [get_gcode, hcl, hv']
      | none => simp [get_gcode, hcl, hb]
    · refine ih _ ?_ e he hek
      intro p v hp
      cases hcl : cache.lookup (rk, rc) with
      | some w =>
        simp only [get_gcode, hcl] at hp
        exact hinv p v hp
      | none =>
        cases hbr : build_gcode rk rc with
        | ok gg =>
          simp only [get_gcode, hcl, hbr] at hp
          by_cases hpq : p = (rk, rc)
          · subst hpq
            rw [lookup_cons_self] at hp
            injection hp with h'
            rw [← h']
            exact hbr
          · rw [lookup_cons_ne _ _ hpq] at hp
            exact hinv p v hp
        | error e2 =>
          simp only [get_gcode, hcl, hbr] at hp
          exact hinv p v hp

/-- The build for a given statically buildable pair runs at most once over
any request sequence. -/
theorem runTrace_count_le_one (k : Key) (c : String) (g : String)
    (hb : build_gcode k c = .ok g) :
    ∀ (reqs : List (Key × String)) (cache : CacheMap),
      (runTrace cache reqs).countP (fun e => decide (e.1 = (k, c)) && e.2.2) ≤ 1 := by
  intro reqs
  induction reqs with
  | nil => intro cache; simp [runTrace]
  | cons r rs ih =>
    intro cache
    obtain ⟨rk, rc⟩ := r
    simp only [runTrace, List.countP_cons]
    by_cases hr : (rk, rc) = (k, c)
    · have hk : rk = k := congrArg Prod.fst hr
      have hc2 : rc = c := congrArg Prod.snd hr
      rw [hk, hc2]
      cases hcl : cache.lookup (k, c) with
      | some v =>
        have hg : get_gcode cache k c = (.ok v, cache, false) := by
          simp only [get_gcode, hcl]
        rw [hg]
        simp [runTrace_count_zero k c rs cache v hcl]
      | none =>
        have hg : get_gcode cache k c = (.ok g, ((k, c), g) :: cache, true) := by
          simp only [get_gcode, hcl, hb]
        rw [hg]
        have h0 := runTrace_count_zero k c rs (((k, c), g) :: cache) g (lookup_cons_self _ _ _)
        simp [h0]
    · have hpred : (decide ((rk, rc) = (k, c)) && (get_gcode cache rk rc).2.2) = false := by
        simp [hr]
      rw [hpred]
      simpa using ih ((get_gcode cache rk rc).2.1)

/-- C6: for a static command and jog key, every served text over the cache's
lifetime is the same built text (byte-identical responses), and the builder
runs at most once for that `(key, cmd)` pair. -/
theorem cache_idempotent_once (k : Key) (c : String) (hc : c ∈ staticCmds) :
    ∃ g, build_gcode k c = .ok g ∧
      ∀ reqs : List (Key × String),
        (∀ e ∈ runTrace [] reqs, e.1 = (k, c) → e.2.1 = .ok g) ∧
        (runTrace [] reqs).countP (fun e => decide (e.1 = (k, c)) && e.2.2) ≤ 1 := by
  obtain ⟨g, hb⟩ := static_build_ok k c hc
  refine ⟨g, hb, fun reqs =>
    ⟨runTrace_responses k c g hb reqs [] ?_, runTrace_count_le_one k c g hb reqs []⟩⟩
  intro p v hp
  simp [List.lookup] at hp

theorem cache_idempotent_once_witness :
    "BOTH_IN" ∈ staticCmds ∧
    ∃ g, build_gcode ⟨2, 900⟩ "BOTH_IN" = .ok g ∧
      ∀ reqs : List (Key × String),
        (∀ e ∈ runTrace [] reqs, e.1 = (⟨2, 900⟩, "BOTH_IN") → e.2.1 = .ok g) ∧
        (runTrace [] reqs).countP
          (fun e => decide (e.1 = ((⟨2, 900⟩ : Key), "BOTH_IN")) && e.2.2) ≤ 1 :=
  ⟨by decide, cache_idempotent_once ⟨2, 900⟩ "BOTH_IN" (by decide)⟩

/-! ### Unknown-command handling (C8) and dynamic-command exclusion (C3) -/

theorem MOTOR_CMDS_eq_none_iff (cmd : String) : MOTOR_CMDS cmd = none ↔ cmd ∉ motorNames := by
  constructor
  · intro h hm
    simp only [motorNames, List.mem_cons, List.not_mem_nil, or_false] at hm
    rcases hm with rfl | rfl | rfl | rfl | rfl | rfl | rfl | rfl <;>
      simp [MOTOR_CMDS, MOTOR_TABLE, List.lookup] at h
  · intro hm
    have f : ∀ s : String, s ∈ motorNames → cmd ≠ s := fun s hs e => hm (by rw [e]; exact hs)
    simp [MOTOR_CMDS, MOTOR_TABLE, List.lookup,
      beq_eq_false_iff_ne.mpr (f "BOTH_IN" (by decide)),
      beq_eq_false_iff_ne.mpr (f "BOTH_OUT" (by decide)),
      beq_eq_false_iff_ne.mpr (f "L_IN" (by decide)),
      beq_eq_false_iff_ne.mpr (f "L_OUT" (by decide)),
      beq_eq_false_iff_ne.mpr (f "R_IN" (by decide)),
      beq_eq_false_iff_ne.mpr (f "R_OUT" (by decide)),
      beq_eq_false_iff_ne.mpr (f "LEFTISH" (by decide)),
      beq_eq_false_iff_ne.mpr (f "RIGHTISH" (by decide))]

/-- The builder's error message on a non-static command. -/
theorem build_error_msg (k : Key) (c : String) (hc : c ∉ staticCmds) :
    build_gcode k c = .error ("unknown cmd " ++ c) := by
  have hm : c ∉ motorNames :=
    fun h => hc (List.mem_append.mpr (Or.inl (List.mem_append.mpr (Or.inl h))))
  have hcar : c ∉ CAROUSEL_CMDS :=
    fun h => hc (List.mem_append.mpr (Or.inl (List.mem_append.mpr (Or.inr h))))
  have hg77 : c ≠ "G77" := fun h =>
    hc (List.mem_append.mpr (Or.inr (by rw [h]; exact List.mem_singleton.mpr rfl)))
  have hmo : MOTOR_CMDS c = none := (MOTOR_CMDS_eq_none_iff c).mpr hm
  simp only [build_gcode, hmo]
  rw [if_neg hcar, if_neg hg77]

/-- Failing with the unknown-command error is equivalent to being outside
the statically recognized set. -/
theorem build_error_iff (k : Key) (c : String) :
    (∃ e, build_gcode k c = .error e) ↔ c ∉ staticCmds := by
  constructor
  · rintro ⟨e, he⟩ hc
    obtain ⟨g, hg⟩ := static_build_ok k c hc
    rw [hg] at he
    simp at he
  · intro hc
    exact ⟨"unknown cmd " ++ c, build_error_msg k c hc⟩

/-- C8 (amended): the static builder fails with the unknown-command error
exactly on identifiers outside its recognized set; such a request gets a
bad-request response, leaves the cache unchanged, and any statically
recognized command is still served successfully afterwards. Pen commands,
though in the closed command set, are outside the static set. -/
theorem unknown_command_handling (key key2 : Key) (cmd cmd2 : String)
    (dyn : List (String × String)) (cache : CacheMap)
    (hdyn : dyn.lookup cmd = none) (hcache : cache.lookup (key, cmd) = none)
    (hns : cmd ∉ staticCmds) (hs : cmd2 ∈ staticCmds) :
    (∀ (k' : Key) (c' : String), (∃ e, build_gcode k' c' = .error e) ↔ c' ∉ staticCmds) ∧
    serve_gcode dyn cache key cmd
      = (.badRequest ("bad request: " ++ ("unknown cmd " ++ cmd) ++ "\n"), cache, true) ∧
    (∃ g cache2 b, serve_gcode dyn cache key2 cmd2 = (.ok g, cache2, b)) := by
  refine ⟨fun k' c' => build_error_iff k' c', ?_, ?_⟩
  · simp only [serve_gcode, hdyn, get_gcode, hcache, build_error_msg key cmd hns]
  · cases hd2 : dyn.lookup cmd2 with
    | some g => exact ⟨g, cache, false, by simp only [serve_gcode, hd2]⟩
    | none =>
      cases hc2 : cache.lookup (key2, cmd2) with
      | some g =>
        exact ⟨g, cache, true, by simp only [serve_gcode, hd2, get_gcode, hc2]⟩
      | none =>
        obtain ⟨g, hg⟩ := static_build_ok key2 cmd2 hs
        exact ⟨g, ((key2, cmd2), g) :: cache, true,
          by simp only [serve_gcode, hd2, get_gcode, hc2, hg]⟩

theorem unknown_command_counterexample :
    "P1_DOWN" ∈ SPECIAL_CMDS ∧
    serve_gcode [] [] ⟨2, 900⟩ "P1_DOWN"
      = (.badRequest "bad request: unknown cmd P1_DOWN\n", [], true) := by
  constructor
  · decide
  · rfl

theorem unknown_command_handling_witness :
    (([] : List (String × String)).lookup "NOPE" = none) ∧
    (([] : CacheMap).lookup ((⟨2, 900⟩ : Key), "NOPE") = none) ∧
    ("NOPE" ∉ staticCmds) ∧ ("G77" ∈ staticCmds) ∧
    ((∀ (k' : Key) (c' : String), (∃ e, build_gcode k' c' = .error e) ↔ c' ∉ staticCmds) ∧
     serve_gcode [] [] ⟨2, 900⟩ "NOPE"
       = (.badRequest ("bad request: " ++ ("unknown cmd " ++ "NOPE") ++ "\n"), [], true) ∧
     (∃ g cache2 b, serve_gcode [] [] ⟨2, 900⟩ "G77" = (.ok g, cache2, b))) :=
  ⟨rfl, rfl, by decide, by decide,
   unknown_command_handling ⟨2, 900⟩ ⟨2, 900⟩ "NOPE" "G77" [] [] rfl rfl
     (by decide) (by decide)⟩

/-- C3 (amended): pen-select identifiers are never served from the static
cache — the static builder rejects them, so absent a dynamic entry the
request errors rather than yielding cached text; any identifier with a
dynamic entry is served from the dynamic table without touching the cache;
and the static G77 text coincides with the dynamic home builder's text. -/
theorem dynamic_pen_exclusion (dyn : List (String × String)) (cache : CacheMap) (key : Key)
    (cmd cmdd : String) (g : String)
    (hpen : cmd ∈ PEN_CMDS) (hcache : cache.lookup (key, cmd) = none)
    (hdnone : dyn.lookup cmd = none) (hd : dyn.lookup cmdd = some g) :
    build_gcode key cmd = .error ("unknown cmd " ++ cmd) ∧
    serve_gcode dyn cache key cmd
      = (.badRequest ("bad request: " ++ ("unknown cmd " ++ cmd) ++ "\n"), cache, true) ∧
    serve_gcode dyn cache key cmdd = (.ok g, cache, false) ∧
    build_gcode key "G77" = .ok build_g77_gcode.1 := by
  have hb := pen_build_error key cmd hpen
  refine ⟨hb, ?_, ?_, rfl⟩
  · simp only [serve_gcode, hdnone, get_gcode, hcache, hb]
  · simp only [serve_gcode, hd]

theorem dynamic_pen_exclusion_counterexample :
    "G77" ∈ dynamicCmds ∧
    serve_gcode [] [] ⟨2, 900⟩ "G77"
      = (.ok "G21\nG90\nM17\nG77\nG92 Z-56\n",
         [((⟨2, 900⟩, "G77"), "G21\nG90\nM17\nG77\nG92 Z-56\n")], true) := by
  constructor
  · decide
  · rfl

theorem dynamic_pen_exclusion_witness :
    ("P2_UP" ∈ PEN_CMDS) ∧
    (([] : CacheMap).lookup ((⟨2, 900⟩ : Key), "P2_UP") = none) ∧
    ([("P1_DOWN", "dyn")].lookup "P2_UP" = none) ∧
    ([("P1_DOWN", "dyn")].lookup "P1_DOWN" = some "dyn") ∧
    (build_gcode ⟨2, 900⟩ "P2_UP" = .error ("unknown cmd " ++ "P2_UP") ∧
     serve_gcode [("P1_DOWN", "dyn")] [] ⟨2, 900⟩ "P2_UP"
       = (.badRequest ("bad request: " ++ ("unknown cmd " ++ "P2_UP") ++ "\n"), [], true) ∧
     serve_gcode [("P1_DOWN", "dyn")] [] ⟨2, 900⟩ "P1_DOWN" = (.ok "dyn", [], false) ∧
     build_gcode ⟨2, 900⟩ "G77" = .ok build_g77_gcode.1) :=
  ⟨by decide, rfl, rfl, rfl,
   dynamic_pen_exclusion [("P1_DOWN", "dyn")] [] ⟨2, 900⟩ "P2_UP" "P1_DOWN" "dyn"
     (by decide) rfl rfl rfl⟩

/-! ### Travel segmenter count and spacing laws (C5) -/

theorem wall_snd (p q : ℝ × ℝ) (D : ℝ) (f : ℤ) : (wall_xy_to_lr_delta_g1 p q D f).2 = q := rfl

theorem seg_loop_go (cur target : ℝ × ℝ) (D : ℝ) (feed : ℤ) (n : ℕ) :
    ∀ (cnt j : ℕ) (L : List G1XY),
      (List.range' (j + 1) cnt).foldl
        (fun acc i =>
          ((acc.1 ++ [(wall_xy_to_lr_delta_g1 acc.2 (seg_pt cur target n i) D feed).1]),
           (wall_xy_to_lr_delta_g1 acc.2 (seg_pt cur target n i) D feed).2))
        (L, seg_pt cur target n j)
      = (L ++ (List.range' (j + 1) cnt).map
            (fun i => (wall_xy_to_lr_delta_g1 (seg_pt cur target n (i - 1))
                        (seg_pt cur target n i) D feed).1),
         seg_pt cur target n (j + cnt)) := by
  intro cnt
  induction cnt with
  | zero => intro j L; simp
  | succ m ih =>
    intro j L
    rw [List.range'_succ]
    simp only [List.foldl_cons, List.map_cons]
    rw [wall_snd]
    have h1 := ih (j + 1)
      (L ++ [(wall_xy_to_lr_delta_g1 (seg_pt cur target n j) (seg_pt cur target n (j + 1))
              D feed).1])
    rw [h1]
    have hidx : j + 1 + m = j + (m + 1) := by omega
    rw [hidx]
    simp [List.append_assoc, Nat.add_sub_cancel]

theorem seg_loop_spec (cur target : ℝ × ℝ) (D : ℝ) (feed : ℤ) (n : ℕ) :
    seg_loop cur target D feed n
      = ((List.range' 1 n).map
            (fun i => (wall_xy_to_lr_delta_g1 (seg_pt cur target n (i - 1))
                        (seg_pt cur target n i) D feed).1),
         seg_pt cur target n n) := by
  have h0 : (([], cur) : List G1XY × (ℝ × ℝ)) = ([], seg_pt cur target n 0) := by
    simp [seg_pt]
  have hgo := seg_loop_go cur target D feed n n 0 []
  simp only [Nat.zero_add, List.nil_append] at hgo
  unfold seg_loop
  rw [h0]
  exact hgo

theorem seg_pt_last (cur target : ℝ × ℝ) {n : ℕ} (hn : n ≠ 0) :
    seg_pt cur target n n = target := by
  have hnn : ((n : ℕ) : ℝ) ≠ 0 := Nat.cast_ne_zero.mpr hn
  unfold seg_pt
  rw [div_self hnn]
  have h1 : cur.1 + (target.1 - cur.1) * 1 = target.1 := by ring
  have h2 : cur.2 + (target.2 - cur.2) * 1 = target.2 := by ring
  rw [h1, h2]

/-- C5: with positive max step and distance above epsilon the segmenter
emits exactly `max 1 ⌈dist / maxStep⌉` moves through the equally spaced
points `seg_pt i` (excluding the start, ending at the target); at or below
epsilon it emits nothing; with non-positive max step it emits one direct
move. -/
theorem travel_segmenter (cur target : ℝ × ℝ) (D : ℝ) (feed : ℤ) (ms : ℝ) :
    (hypot (target.1 - cur.1) (target.2 - cur.2) ≤ 1 / 1000000000 →
      move_xy_segmented cur target D feed ms = ([], cur)) ∧
    (1 / 1000000000 < hypot (target.1 - cur.1) (target.2 - cur.2) → ms ≤ 0 →
      move_xy_segmented cur target D feed ms
        = ([(wall_xy_to_lr_delta_g1 cur target D feed).1], target)) ∧
    (1 / 1000000000 < hypot (target.1 - cur.1) (target.2 - cur.2) → 0 < ms →
      (move_xy_segmented cur target D feed ms).1.length
          = max 1 (⌈hypot (target.1 - cur.1) (target.2 - cur.2) / ms⌉).toNat ∧
      move_xy_segmented cur target D feed ms
        = ((List.range' 1
              (max 1 (⌈hypot (target.1 - cur.1) (target.2 - cur.2) / ms⌉).toNat)).map
             (fun i => (wall_xy_to_lr_delta_g1
                 (seg_pt cur target
                   (max 1 (⌈hypot (target.1 - cur.1) (target.2 - cur.2) / ms⌉).toNat) (i - 1))
                 (seg_pt cur target
                   (max 1 (⌈hypot (target.1 - cur.1) (target.2 - cur.2) / ms⌉).toNat) i)
                 D feed).1),
           seg_pt cur target
             (max 1 (⌈hypot (target.1 - cur.1) (target.2 - cur.2) / ms⌉).toNat)
             (max 1 (⌈hypot (target.1 - cur.1) (target.2 - cur.2) / ms⌉).toNat)) ∧
      seg_pt cur target
          (max 1 (⌈hypot (target.1 - cur.1) (target.2 - cur.2) / ms⌉).toNat)
          (max 1 (⌈hypot (target.1 - cur.1) (target.2 - cur.2) / ms⌉).toNat)
        = target) := by
  refine ⟨?_, ?_, ?_⟩
  · intro hd
    unfold move_xy_segmented
    rw [if_pos hd]
  · intro hd hm
    unfold move_xy_segmented
    rw [if_neg (not_le.mpr hd), if_pos hm, wall_snd]
  · intro hd hm
    have hmov : move_xy_segmented cur target D feed ms
        = seg_loop cur target D feed
            (max 1 (⌈hypot (target.1 - cur.1) (target.2 - cur.2) / ms⌉).toNat) := by
      unfold move_xy_segmented
      rw [if_neg (not_le.mpr hd), if_neg (not_le.mpr hm)]
    have hn : (max 1 (⌈hypot (target.1 - cur.1) (target.2 - cur.2) / ms⌉).toNat) ≠ 0 := by
      have h1 : 1 ≤ max 1 (⌈hypot (target.1 - cur.1) (target.2 - cur.2) / ms⌉).toNat :=
        le_max_left 1 _
      omega
    refine ⟨?_, ?_, seg_pt_last cur target hn⟩
    · rw [hmov, seg_loop_spec]
      simp
    · rw [hmov, seg_loop_spec]

theorem travel_segmenter_witness :
    (1 / 1000000000 : ℝ) < hypot (((12 : ℝ), (0 : ℝ)).1 - ((0 : ℝ), (0 : ℝ)).1)
        (((12 : ℝ), (0 : ℝ)).2 - ((0 : ℝ), (0 : ℝ)).2) ∧
    (0 : ℝ) < 5 ∧
    (move_xy_segmented ((0 : ℝ), (0 : ℝ)) ((12 : ℝ), (0 : ℝ)) 1860 600 5).1.length = 3 ∧
    (move_xy_segmented ((0 : ℝ), (0 : ℝ)) ((12 : ℝ), (0 : ℝ)) 1860 600 5).2
      = ((12 : ℝ), (0 : ℝ)) := by
  have hh : hypot (((12 : ℝ), (0 : ℝ)).1 - ((0 : ℝ), (0 : ℝ)).1)
      (((12 : ℝ), (0 : ℝ)).2 - ((0 : ℝ), (0 : ℝ)).2) = 12 := by
    show hypot ((12 : ℝ) - 0) ((0 : ℝ) - 0) = 12
    unfold hypot
    rw [show ((12 : ℝ) - 0) ^ 2 + ((0 : ℝ) - 0) ^ 2 = 12 ^ 2 by norm_num]
    exact Real.sqrt_sq (by norm_num)
  have hd : (1 / 1000000000 : ℝ) < hypot (((12 : ℝ), (0 : ℝ)).1 - ((0 : ℝ), (0 : ℝ)).1)
      (((12 : ℝ), (0 : ℝ)).2 - ((0 : ℝ), (0 : ℝ)).2) := by
    rw [hh]; norm_num
  have hceil : ⌈hypot (((12 : ℝ), (0 : ℝ)).1 - ((0 : ℝ), (0 : ℝ)).1)
      (((12 : ℝ), (0 : ℝ)).2 - ((0 : ℝ), (0 : ℝ)).2) / 5⌉ = 3 := by
    rw [hh]
    rw [Int.ceil_eq_iff] <;> norm_num
  have hmax : max 1 (⌈hypot (((12 : ℝ), (0 : ℝ)).1 - ((0 : ℝ), (0 : ℝ)).1)
      (((12 : ℝ), (0 : ℝ)).2 - ((0 : ℝ), (0 : ℝ)).2) / 5⌉).toNat = 3 := by
    rw [hceil]
    decide
  have main := (travel_segmenter ((0 : ℝ), (0 : ℝ)) ((12 : ℝ), (0 : ℝ)) 1860 600 5).2.2
    hd (by norm_num)
  refine ⟨hd, by norm_num, ?_, ?_⟩
  · rw [main.1]
    exact hmax
  · exact (congrArg Prod.snd main.2.1).trans main.2.2

/-! ### Path sampler count law (C7) -/

/-- C7 (amended): the drawing loop computes
`n = max(1, ceil(lengthWall / max(1e-9, step_mm)))`, which agrees with the
plain `ceil(lengthWall / step_mm)` formula whenever `step_mm >= 1e-9`; the
sampler then returns exactly `n + 1` points at uniformly spaced parameters
including both endpoints, and a zero-length curve yields the 2-point sample
with coinciding endpoints when the curve is constant. -/
theorem path_sampler_behavior (γ : ℝ → ℝ × ℝ) (lw sm : ℚ) (n : ℤ)
    (hs : 1 / 1000000000 ≤ sm) (hn : 1 ≤ n) :
    n_samples lw sm = max 1 ⌈lw / sm⌉ ∧
    (sample_path_uniform_t γ n).length = n.toNat + 1 ∧
    (sample_path_uniform_t γ n).head? = some (γ 0) ∧
    (sample_path_uniform_t γ n).getLast? = some (γ 1) ∧
    (∀ i : ℕ, i < n.toNat + 1 →
      (sample_path_uniform_t γ n)[i]? = some (γ ((i : ℝ) / ((n : ℤ) : ℝ)))) ∧
    (lw = 0 → n_samples lw sm = 1) ∧
    ((∀ t : ℝ, γ t = γ 0) → sample_path_uniform_t γ 1 = [γ 0, γ 0]) := by
  have hmax : max 1 n = n := max_eq_right hn
  have hpos : (0 : ℤ) < n := by omega
  have hnn : ((n : ℤ) : ℝ) ≠ 0 := ne_of_gt (by exact_mod_cast hpos)
  have hcast : ((n.toNat : ℕ) : ℝ) = ((n : ℤ) : ℝ) := by
    exact_mod_cast congrArg (fun z : ℤ => (z : ℝ)) (Int.toNat_of_nonneg (by omega))
  refine ⟨?_, ?_, ?_, ?_, ?_, ?_, ?_⟩
  · unfold n_samples
    rw [max_eq_right hs]
  · unfold sample_path_uniform_t
    rw [hmax, List.length_map, List.length_range]
  · unfold sample_path_uniform_t
    rw [hmax, List.range_succ_eq_map, List.map_cons, List.head?_cons]
    norm_num
  · unfold sample_path_uniform_t
    rw [hmax, List.getLast?_eq_getElem?, List.length_map, List.length_range,
      Nat.add_sub_cancel, List.getElem?_map, List.getElem?_range (Nat.lt_succ_self n.toNat),
      Option.map_some']
    rw [hcast, div_self hnn]
  · intro i hi
    unfold sample_path_uniform_t
    rw [hmax, List.getElem?_map, List.getElem?_range hi, Option.map_some']
  · intro h0
    subst h0
    unfold n_samples
    rw [zero_div, Int.ceil_zero]
    decide
  · intro hconst
    have hsample : sample_path_uniform_t γ 1 = [γ 0, γ 1] := by
      unfold sample_path_uniform_t
      rw [show (max 1 (1 : ℤ)) = 1 from max_self 1]
      rw [show ((1 : ℤ).toNat + 1) = 2 from rfl]
      rw [show List.range 2 = [0, 1] from rfl, List.map_cons, List.map_cons, List.map_nil]
      norm_num
    rw [hsample, hconst 1]

theorem path_sampler_counterexample :
    n_samples 1 (1 / 2000000000) ≠ max 1 ⌈(1 : ℚ) / (1 / 2000000000)⌉ := by
  have h1 : max (1 / 1000000000 : ℚ) (1 / 2000000000) = 1 / 1000000000 :=
    max_eq_left (by norm_num)
  have h2 : ⌈(1 : ℚ) / (1 / 1000000000)⌉ = 1000000000 := by
    rw [Int.ceil_eq_iff] <;> norm_num
  have h3 : ⌈(1 : ℚ) / (1 / 2000000000)⌉ = 2000000000 := by
    rw [Int.ceil_eq_iff] <;> norm_num
  unfold n_samples
  rw [h1, h2, h3]
  norm_num

theorem path_sampler_behavior_witness :
    ((1 / 1000000000 : ℚ) ≤ 1) ∧ ((1 : ℤ) ≤ 2) ∧
    n_samples 3 1 = max 1 ⌈(3 : ℚ) / 1⌉ ∧
    (sample_path_uniform_t (fun _ => ((0 : ℝ), (0 : ℝ))) 2).length = (2 : ℤ).toNat + 1 ∧
    ((3 : ℚ) = 0 → n_samples 3 1 = 1) :=
  ⟨by norm_num, by norm_num,
   (path_sampler_behavior (fun _ => ((0 : ℝ), (0 : ℝ))) 3 1 2 (by norm_num) (by norm_num)).1,
   (path_sampler_behavior (fun _ => ((0 : ℝ), (0 : ℝ))) 3 1 2 (by norm_num) (by norm_num)).2.1,
   (path_sampler_behavior (fun _ => ((0 : ℝ), (0 : ℝ))) 3 1 2 (by norm_num) (by norm_num)).2.2.2.2.2.1⟩
